import Mathlib

/-!
Shallow embedding of the core of the `ebcli` command-line client:
the account resolver, the OAuth callback validation, the JWT TTL
clamping, the rate-limit tracker (Governor) and the request pipeline
with its bounded retry logic.

Go strings are modelled as lists of characters (`Str`); Go's
`strings.ToLower` / `strings.EqualFold` are modelled at the
scalar-value level by `Char.toLower` folding, which agrees with Go on
ASCII data (all inputs appearing in the repository's paths, headers
and examples are ASCII).  Go byte-length and rune-length coincide on
that data as well.
-/

namespace EBCli

/-- Go `string`, modelled as a list of characters. -/
abbrev Str := List Char

/-- Go `strings.ToLower` (scalar-wise lowering). -/
def lowerStr (s : Str) : Str := s.map Char.toLower

/-- Go `strings.EqualFold`, modelled as equality after lowering. -/
def eqFold (a b : Str) : Bool := lowerStr a == lowerStr b

/-- Go `strings.TrimSpace`: drop whitespace from both ends. -/
def trimSpace (s : Str) : Str :=
  ((s.dropWhile Char.isWhitespace).reverse.dropWhile Char.isWhitespace).reverse

/-- Go `strings.Trim(s, "/")`: drop `/` characters from both ends. -/
def trimSlashes (s : Str) : Str :=
  ((s.dropWhile (· == '/')).reverse.dropWhile (· == '/')).reverse

/-- Literal helper: a `Str` from a Lean string literal. -/
def str (s : String) : Str := s.toList

/-- Nanoseconds per second (`time.Second` as a count of nanoseconds). -/
def nsPerSec : Int := 1000000000

namespace Resolver

/-! ### Account resolver (`internal/resolver`) -/

/-- `config.Account` (the fields the resolver consults). -/
structure Account where
  uid : Str
  iban : Str
  aliasName : Str
deriving Repr, DecidableEq

/-- `config.Connection` (the fields the resolver consults). -/
structure Connection where
  accounts : List Account
  requiredPSUHeaders : List Str
deriving Repr, DecidableEq

/-- `config.Config` restricted to its connection list. -/
structure Config where
  connections : List Connection
deriving Repr, DecidableEq

/-- `resolver.Result`: resolved account, parent connection, PSU headers. -/
structure RResult where
  account : Account
  connection : Connection
  requiredPSUHeaders : List Str
deriving Repr, DecidableEq

/-- The resolver's error outcomes. -/
inductive ResolveErr where
  /-- "empty account identifier" -/
  | emptyQuery : ResolveErr
  /-- "no account found matching %q" -/
  | notFound (query : Str) : ResolveErr
  /-- "ambiguous identifier %q matches %d accounts" -/
  | ambiguous (query : Str) (count : Nat) : ResolveErr
deriving Repr, DecidableEq

/-- `resolver.matchesAccount`: alias, UID, UID-prefix (length at least 4),
or IBAN (guarded by IBAN being non-empty), all case-insensitive. -/
def matchesAccount (acct : Account) (query : Str) : Bool :=
  let q := lowerStr query
  if eqFold acct.aliasName query then true
  else if eqFold acct.uid query then true
  else if decide (4 ≤ q.length) && q.isPrefixOf (lowerStr acct.uid) then true
  else if acct.iban ≠ [] && eqFold acct.iban query then true
  else false

/-- The list of matches Resolve accumulates over all connections. -/
def collectMatches (cfg : Config) (query : Str) : List RResult :=
  cfg.connections.flatMap fun conn =>
    (conn.accounts.filter (fun a => matchesAccount a query)).map fun a =>
      { account := a, connection := conn, requiredPSUHeaders := conn.requiredPSUHeaders }

/-- The resolver's `(result, error)` pair as a sum. -/
inductive ResolveOut where
  | ok (r : RResult) : ResolveOut
  | err (e : ResolveErr) : ResolveOut
deriving Repr, DecidableEq

/-- `resolver.Resolve`: trim, reject empty, collect matches, then demand
exactly one. -/
def Resolve (cfg : Config) (query : Str) : ResolveOut :=
  let query := trimSpace query
  if query = [] then .err .emptyQuery
  else
    match collectMatches cfg query with
    | [] => .err (.notFound query)
    | [m] => .ok m
    | ms => .err (.ambiguous query ms.length)

/-- The matching policy exactly as the specification words it: alias, UID
or IBAN equal case-insensitively, or a case-insensitive UID prefix of
length at least 4 (no non-empty-IBAN guard). -/
def specMatches (acct : Account) (query : Str) : Bool :=
  eqFold acct.aliasName query || eqFold acct.uid query || eqFold acct.iban query ||
    (decide (4 ≤ (lowerStr query).length) && (lowerStr query).isPrefixOf (lowerStr acct.uid))

end Resolver

namespace Auth

/-! ### OAuth callback validation (`internal/auth/callback.go`) -/

/-- `auth.CallbackResult`: the four query parameters extracted from the
redirect request. -/
structure CallbackResult where
  code : Str
  state : Str
  error : Str
  errorDescription : Str
deriving Repr, DecidableEq

/-- The distinct error outcomes of `ListenForCallback`'s validation of a
delivered callback (the timeout path needs no callback and is outside
this pure model). -/
inductive CallbackErr where
  /-- "state mismatch: expected %q, got %q (possible CSRF attack)" -/
  | stateMismatch (expected got : Str) : CallbackErr
  /-- "authorization failed: %s - %s" -/
  | remoteError (code desc : Str) : CallbackErr
  /-- "no authorization code received in callback" -/
  | noCode : CallbackErr
deriving Repr, DecidableEq

/-- The `(*CallbackResult, error)` pair of `ListenForCallback` as a sum. -/
inductive CallbackOut where
  | ok (r : CallbackResult) : CallbackOut
  | err (e : CallbackErr) : CallbackOut
deriving Repr, DecidableEq

/-- The validation `ListenForCallback` performs on the result delivered by
the handler (callback.go lines 79-99): state first, then remote error,
then missing code, else success. -/
def validateCallback (result : CallbackResult) (expectedState : Str) :
    CallbackOut :=
  if result.state ≠ expectedState then
    .err (.stateMismatch expectedState result.state)
  else if result.error ≠ [] then
    .err (.remoteError result.error result.errorDescription)
  else if result.code = [] then
    .err .noCode
  else
    .ok result

/-! ### JWT TTL clamping (`internal/auth`, `GenerateJWT`)

Durations and instants are in nanoseconds (Go `time.Duration` /
`time.Time`), instants as `Nat` nanoseconds since the epoch (the wall
clock is after the epoch).  `time.Time.Unix()` — the value put in the
`iat` / `exp` claims — is whole seconds, i.e. division by 10^9. -/

/-- `auth.MaxTTL = 24 * time.Hour` in nanoseconds. -/
def MaxTTL : Int := 86400 * nsPerSec

/-- `auth.DefaultTTL = 1 * time.Hour` in nanoseconds. -/
def DefaultTTL : Int := 3600 * nsPerSec

/-- The TTL adjustment at the top of `GenerateJWT`: non-positive requests
fall back to `DefaultTTL`, requests above `MaxTTL` are clamped to it. -/
def clampTTL (ttl : Int) : Int :=
  let t := if ttl ≤ 0 then DefaultTTL else ttl
  if t > MaxTTL then MaxTTL else t

/-- The `iat` claim: `now.Unix()` for `now` in nanoseconds. -/
def iatClaim (now : Nat) : Nat := now / 1000000000

/-- The `exp` claim: `now.Add(ttl).Unix()` after clamping. -/
def expClaim (now : Nat) (ttl : Int) : Nat :=
  (now + (clampTTL ttl).toNat) / 1000000000

end Auth

namespace RateLimit

/-! ### Rate-limit Governor (`internal/ratelimit/ratelimit.go`)

Instants are `Int` nanoseconds measured from Go's zero `time.Time`, so
`0` is the zero instant and `IsZero` is comparison with `0`; the real
wall clock is a huge positive value.  Go maps are modelled as
association lists with overwrite-in-place assignment. -/

/-- `ratelimit.CacheEntry`.  `retryAfter = 0` models the zero `time.Time`
(`IsZero`). -/
structure CacheEntry where
  accountUID : Str
  endpoint : Str
  limit : Int
  remaining : Int
  retryAfter : Int
  updatedAt : Int
deriving Repr, DecidableEq, Inhabited

/-- `ratelimit.DailyUsage`. -/
structure DailyUsage where
  date : Str
  count : Int
  maxPerDay : Int
  updatedAt : Int
deriving Repr, DecidableEq, Inhabited

/-- The tracker's `entries` map. -/
abbrev EntryMap := List (Str × CacheEntry)

/-- The tracker's `daily` map, keyed by connection name. -/
abbrev DailyMap := List (Str × DailyUsage)

/-- First-match association-list lookup (Go map read). -/
def lookupA {α : Type} (k : Str) : List (Str × α) → Option α
  | [] => none
  | (k', v) :: rest => if k' = k then some v else lookupA k rest

/-- Association-list overwrite (Go map assignment). -/
def insertA {α : Type} (k : Str) (v : α) : List (Str × α) → List (Str × α)
  | [] => [(k, v)]
  | (k', v') :: rest => if k' = k then (k, v) :: rest else (k', v') :: insertA k v rest

/-- `ratelimit.key`: `accountUID + ":" + endpoint`. -/
def key (accountUID endpoint : Str) : Str := accountUID ++ ':' :: endpoint

/-- The digits of a decimal numeral, or `none` when the list is empty or
holds a non-digit. -/
def digitsVal (s : Str) : Option Nat :=
  if s ≠ [] && s.all Char.isDigit then
    some (s.foldl (fun a c => a * 10 + (c.toNat - '0'.toNat)) 0)
  else none

/-- Go `strconv.Atoi`: optional sign followed by at least one digit
(the platform overflow bound is not modelled; no claim depends on it). -/
def atoiGo : Str → Option Int
  | [] => none
  | '+' :: rest => (digitsVal rest).map Int.ofNat
  | '-' :: rest => (digitsVal rest).map fun n => -(n : Int)
  | s => (digitsVal s).map Int.ofNat

/-- `atoi` as Go's discarded-error idiom uses it: `v, _ = strconv.Atoi(s)`
is `0` on failure. -/
def atoiD (s : Str) : Int := (atoiGo s).getD 0

/-- The three response headers the tracker consults; `[]` models an
absent header (Go `Header.Get` returns `""`). -/
structure Headers where
  retryAfter : Str
  rlRemaining : Str
  rlLimit : Str
deriving Repr, DecidableEq

/-- `ratelimit.parseRateLimitHeaders`: `ok` is false only when both
rate-limit headers are absent; values are `Atoi` with errors discarded. -/
def parseRateLimitHeaders (h : Headers) : Option (Int × Int) :=
  if h.rlRemaining = [] ∧ h.rlLimit = [] then none
  else some (atoiD h.rlRemaining, atoiD h.rlLimit)

/-- `ratelimit.ParseRetryAfter`: empty header is `none`; an integer is
seconds from now; otherwise `http.ParseTime` (passed in abstractly as
`parseTime`, since RFC-1123 date parsing is outside the model) gives an
absolute instant. -/
def ParseRetryAfterGo (parseTime : Str → Option Int) (h : Headers) (now : Int) :
    Option Int :=
  if h.retryAfter = [] then none
  else
    match atoiGo h.retryAfter with
    | some secs => some (now + secs * nsPerSec)
    | none => parseTime h.retryAfter

/-- `Tracker.Update`.  Returns the new entry map and whether the
low-quota warning was printed; `none` models the run aborting because
the warning's `accountUID[:8]` slice is out of bounds (a Go panic) for
a non-empty owner shorter than 8 characters.  The `resp == nil` guard
is the `Option Headers` argument. -/
def trackerUpdate (entries : EntryMap) (accountUID endpoint : Str)
    (resp : Option Headers) (now : Int) : Option (EntryMap × Bool) :=
  match resp with
  | none => some (entries, false)
  | some h =>
    if accountUID = [] then some (entries, false)
    else
      match parseRateLimitHeaders h with
      | none => some (entries, false)
      | some (remaining, limit) =>
        let entries' := insertA (key accountUID endpoint)
          { accountUID := accountUID, endpoint := endpoint, limit := limit,
            remaining := remaining, retryAfter := 0, updatedAt := now } entries
        if remaining ≤ 1 then
          if 8 ≤ accountUID.length then some (entries', true)
          else none
        else some (entries', false)

/-- `Tracker.RecordRetryAfter`: create or update the entry, setting
`retryAfter` and `updatedAt`. -/
def trackerRecordRetryAfter (entries : EntryMap) (accountUID endpoint : Str)
    (retryAfter now : Int) : EntryMap :=
  let k := key accountUID endpoint
  match lookupA k entries with
  | some e => insertA k { e with retryAfter := retryAfter, updatedAt := now } entries
  | none =>
    insertA k
      { accountUID := accountUID, endpoint := endpoint, limit := 0,
        remaining := 0, retryAfter := retryAfter, updatedAt := now } entries

/-- Outcome of `Tracker.Check`. -/
inductive CheckResult where
  /-- `nil`: OK to proceed. -/
  | ok : CheckResult
  /-- "rate limited for account %s endpoint %s until %s" -/
  | throttled (untilTime : Int) : CheckResult
  /-- The error message's `accountUID[:8]` slice is out of bounds
  (a Go panic) for a non-empty owner shorter than 8 characters. -/
  | fault : CheckResult
deriving Repr, DecidableEq

/-- `Tracker.Check`: an error while `now` is before a non-zero
`retryAfter`; unknown keys and empty owners always pass. -/
def trackerCheck (entries : EntryMap) (accountUID endpoint : Str) (now : Int) :
    CheckResult :=
  if accountUID = [] then .ok
  else
    match lookupA (key accountUID endpoint) entries with
    | none => .ok
    | some e =>
      if e.retryAfter ≠ 0 ∧ now < e.retryAfter then
        if 8 ≤ accountUID.length then .throttled e.retryAfter else .fault
      else .ok

/-- Outcome of `Tracker.CheckDaily`. -/
inductive DailyCheck where
  /-- `nil` with no diagnostic. -/
  | pass : DailyCheck
  /-- `nil` after printing "last daily access". -/
  | passWarn : DailyCheck
  /-- "daily limit reached for %s (%d/%d today)" -/
  | limitError (count maxPerDay : Int) : DailyCheck
deriving Repr, DecidableEq

/-- `Tracker.CheckDaily`: non-positive limits always pass; a row for
another day counts as no usage; at the limit it errors; one below the
limit it passes with a warning. -/
def checkDaily (daily : DailyMap) (connectionName : Str) (maxPerDay : Int)
    (today : Str) : DailyCheck :=
  if maxPerDay ≤ 0 then .pass
  else
    match lookupA connectionName daily with
    | none => .pass
    | some usage =>
      if usage.date ≠ today then .pass
      else if maxPerDay ≤ usage.count then .limitError usage.count maxPerDay
      else if maxPerDay - 1 ≤ usage.count then .passWarn
      else .pass

/-- `Tracker.RecordDaily`: start a fresh row when absent or dated another
day, then increment and stamp. -/
def recordDaily (daily : DailyMap) (connectionName : Str) (maxPerDay : Int)
    (today : Str) (now : Int) : DailyMap :=
  let usage : DailyUsage :=
    match lookupA connectionName daily with
    | some u => if u.date ≠ today then
        { date := today, count := 0, maxPerDay := maxPerDay, updatedAt := 0 } else u
    | none => { date := today, count := 0, maxPerDay := maxPerDay, updatedAt := 0 }
  insertA connectionName
    { usage with count := usage.count + 1, maxPerDay := maxPerDay, updatedAt := now }
    daily

/-- `k` successive `Tracker.RecordDaily` calls for one connection on one
day (the spec's "after n recordDailyAccess calls on the same calendar
day"). -/
def recordDailyN (connectionName : Str) (maxPerDay : Int) (today : Str) (now : Int) :
    Nat → DailyMap → DailyMap
  | 0, daily => daily
  | k + 1, daily =>
    recordDaily (recordDailyN connectionName maxPerDay today now k daily)
      connectionName maxPerDay today now

/-- Nanoseconds in 24 hours. -/
def dayNs : Int := 86400 * nsPerSec

/-- The persisted cache document: either the current wrapped format
(`cacheFile`, with `omitempty` on both maps) or the legacy bare map of
quota entries. -/
inductive StoreDoc where
  | wrapped (entries : Option EntryMap) (daily : Option DailyMap) : StoreDoc
  | bare (entries : EntryMap) : StoreDoc
deriving Repr, DecidableEq

/-- `Tracker.Persist`: prune entries older than 24 hours and daily rows
not dated today; remove the file (result `none`) when nothing remains,
otherwise write the wrapped document (empty maps omitted). -/
def persist (entries : EntryMap) (daily : DailyMap) (now : Int) (today : Str) :
    EntryMap × DailyMap × Option StoreDoc :=
  let cutoff := now - dayNs
  let entries' := entries.filter fun p => ¬ (p.2.updatedAt < cutoff)
  let daily' := daily.filter fun p => p.2.date = today
  (entries', daily',
    if entries' = [] ∧ daily' = [] then none
    else
      some (.wrapped (if entries' = [] then none else some entries')
                     (if daily' = [] then none else some daily')))

/-- Unmarshalling the document into `cacheFile`: a wrapped document
yields its two optional maps; a bare map's unknown keys are ignored, so
both fields stay nil. -/
def decodeWrapper : StoreDoc → Option EntryMap × Option DailyMap
  | .wrapped e d => (e, d)
  | .bare _ => (none, none)

/-- Unmarshalling the document as the legacy bare map.  The wrapped case
is only reached by `loadDoc` for the empty object, where the bare parse
leaves the initial empty map. -/
def decodeBare : StoreDoc → EntryMap
  | .bare m => m
  | .wrapped _ _ => []

/-- `Tracker.load` on an existing file: try the wrapped format first and
use it when at least one of its maps is present, otherwise fall back to
the legacy bare map.  The tracker starts from empty maps. -/
def loadDoc (doc : StoreDoc) : EntryMap × DailyMap :=
  let (e, d) := decodeWrapper doc
  if e.isSome ∨ d.isSome then (e.getD [], d.getD [])
  else (decodeBare doc, [])

/-- `Tracker.load` including the missing-file case (read error leaves the
fresh tracker's empty maps). -/
def loadFile : Option StoreDoc → EntryMap × DailyMap
  | none => ([], [])
  | some doc => loadDoc doc

end RateLimit

namespace Api

open RateLimit

/-! ### Request pipeline (`internal/api`, `doRequestWithRetry`)

The HTTP world is a script: one outcome per attempt, consumed in
order; an exhausted script behaves as unreachable-server transport
failures.  Time is an `Int` nanosecond clock that only advances across
the pipeline's `time.Sleep` calls.  JWT minting, body marshalling and
PSU-header generation precede the HTTP call and abort it on failure
without any retry; they involve crypto and external collaborators and
are outside this model, as is the decoding of the success body.  The
rate limiter is modelled as always attached, which is how `cmd/root.go`
wires every pipeline client. -/

/-- Go `strings.Contains hay needle`: the needle occurs as a contiguous
substring of the haystack. -/
def containsStr (hay needle : Str) : Bool :=
  match hay with
  | [] => needle == []
  | _ :: rest => needle.isPrefixOf hay || containsStr rest needle

/-- Query-string stripping: keep everything before the first `?`. -/
def stripQuery (s : Str) : Str := s.takeWhile (· ≠ '?')

/-- The loop body of `extractAccountUID`: the segment after the first
`accounts` segment that has a successor, query-stripped. -/
def findAccountsUID : List Str → Str
  | p :: next :: rest =>
    if p = str "accounts" then stripQuery next
    else findAccountsUID (next :: rest)
  | _ => []

/-- `api.extractAccountUID`: split on `/` and take the segment following
`accounts`, else empty. -/
def extractAccountUID (path : Str) : Str :=
  findAccountsUID (path.splitOn '/')

/-- `api.extractEndpoint`: strip the query string, trim `/` from both
ends, split on `/` and take the last segment. -/
def extractEndpoint (path : Str) : Str :=
  let p := stripQuery path
  let parts := (trimSlashes p).splitOn '/'
  parts.getLast?.getD p

/-- One scripted outcome of `httpClient.Do`. -/
inductive HTTPOutcome where
  | transportFailure : HTTPOutcome
  | response (status : Int) (headers : Headers) (body : Str) : HTTPOutcome
deriving Repr, DecidableEq

/-- Observable pipeline events, in program order. -/
inductive Event where
  /-- An HTTP attempt was issued. -/
  | attempt : Event
  /-- `rateLimiter.RecordRetryAfter` was called. -/
  | recordedThrottle (accountUID endpoint : Str) (retryAt : Int) : Event
  /-- `time.Sleep` of the given duration. -/
  | slept (d : Int) : Event
deriving Repr, DecidableEq

/-- The pipeline's threaded state: the Governor's entries, the clock and
the event trace. -/
structure PipeState where
  entries : EntryMap
  now : Int
  trace : List Event
deriving Repr, DecidableEq

/-- `time.Sleep`: advance the clock and record the event. -/
def sleepSt (st : PipeState) (d : Int) : PipeState :=
  { st with now := st.now + d, trace := st.trace ++ [.slept d] }

/-- The pipeline's outcome classes for one logical call. -/
inductive PipeResult where
  /-- 2xx: the response body. -/
  | ok (body : Str) : PipeResult
  /-- "HTTP request failed" after the transport retry. -/
  | transportError : PipeResult
  /-- `SessionExpiredError` on 401/403 for an account-scoped path. -/
  | sessionExpired (status : Int) : PipeResult
  /-- `parseAPIError` for other statuses at least 400. -/
  | apiError (status : Int) : PipeResult
  /-- The run aborted in `Tracker.Update` (out-of-bounds slice). -/
  | panicked : PipeResult
deriving Repr, DecidableEq

/-- `500 * time.Millisecond`. -/
def ms500 : Int := 500 * 1000000

/-- `2 * time.Second`, the default 429 backoff. -/
def sec2 : Int := 2 * nsPerSec

/-- `5 * time.Minute`, the Retry-After acceptance bound. -/
def min5 : Int := 300 * nsPerSec

/-- The outcome of one HTTP attempt after the unconditional
`rateLimiter.Update` call: transport failure, a run aborted inside
`Update`, or a response ready for status-code policy. -/
inductive StepOut where
  | transport (st : PipeState) : StepOut
  | fault (st : PipeState) : StepOut
  | resp (status : Int) (hdr : Headers) (body : Str) (st : PipeState) : StepOut
deriving Repr, DecidableEq

/-- One HTTP attempt of `doRequestWithRetry` up to the rate-limit
tracking: issue the request (consume the script's head) and, on any
response, call `Tracker.Update` with the path-derived owner and
endpoint. -/
def attemptStep (path : Str) (script : List HTTPOutcome) (st₀ : PipeState) :
    StepOut :=
  let st := { st₀ with trace := st₀.trace ++ [Event.attempt] }
  match script.headD .transportFailure with
  | .transportFailure => .transport st
  | .response status hdr body =>
    match trackerUpdate st.entries (extractAccountUID path) (extractEndpoint path)
        (some hdr) st.now with
    | none => .fault st
    | some (entries', _warned) => .resp status hdr body { st with entries := entries' }

/-- The non-retrying tail of the status-code policy: 401/403 on an
account-scoped path is a session-expired error, other statuses at least
400 are typed API errors, anything else succeeds with the body. -/
def finishStatus (path : Str) (status : Int) (body : Str) (st : PipeState) :
    PipeResult × PipeState :=
  if 400 ≤ status then
    if (status = 401 ∨ status = 403) ∧ containsStr path (str "/accounts/") then
      (.sessionExpired status, st)
    else (.apiError status, st)
  else (.ok body, st)

/-- `Client.doRequestWithRetry`.  `budget` is the remaining retry budget:
the source's `canRetry` is `budget ≠ 0`, and since the entry point
passes budget `1` and the source always recurses with
`canRetry = false`, every recursive call here runs with budget `0`. -/
def doRequestGo (parseTime : Str → Option Int) (path : Str) :
    Nat → List HTTPOutcome → PipeState → PipeResult × PipeState
  | 0, script, st₀ =>
    (match attemptStep path script st₀ with
     | .transport st => (.transportError, st)
     | .fault st => (.panicked, st)
     | .resp status _hdr body st => finishStatus path status body st)
  | b + 1, script, st₀ =>
    (match attemptStep path script st₀ with
     | .transport st => doRequestGo parseTime path b script.tail (sleepSt st ms500)
     | .fault st => (.panicked, st)
     | .resp status hdr body st =>
       if status = 429 then
         let uid := extractAccountUID path
         let ep := extractEndpoint path
         match ParseRetryAfterGo parseTime hdr st.now with
         | some retryAt =>
           let st :=
             { st with
               entries := trackerRecordRetryAfter st.entries uid ep retryAt st.now,
               trace := st.trace ++ [.recordedThrottle uid ep retryAt] }
           let wait := retryAt - st.now
           if 0 < wait ∧ wait < min5 then
             doRequestGo parseTime path b script.tail (sleepSt st wait)
           else
             doRequestGo parseTime path b script.tail (sleepSt st sec2)
         | none =>
           doRequestGo parseTime path b script.tail (sleepSt st sec2)
       else if 500 ≤ status then
         doRequestGo parseTime path b script.tail (sleepSt st ms500)
       else finishStatus path status body st)

/-- `Client.doRequest`: the entry point passes `canRetry = true`,
i.e. a retry budget of one. -/
def doRequest (parseTime : Str → Option Int) (path : Str)
    (script : List HTTPOutcome) (st : PipeState) : PipeResult × PipeState :=
  doRequestGo parseTime path 1 script st

/-- Number of HTTP attempts recorded in a trace. -/
def attemptCount (trace : List Event) : Nat := trace.count .attempt

end Api

/-- The exact condition under which `Tracker.Update` takes the
out-of-bounds `accountUID[:8]` slice and aborts: rate-limit headers
present, a non-empty owner shorter than 8 characters, and a remaining
count of at most 1 (the low-quota warning branch). -/
def RateLimit.updateFaults (accountUID : Str) (h : RateLimit.Headers) : Bool :=
  accountUID ≠ [] &&
    (match RateLimit.parseRateLimitHeaders h with
     | some (remaining, _) => remaining ≤ 1 && decide (accountUID.length < 8)
     | none => false)

/-- The specification's example account a. -/
def exAcctA : Resolver.Account :=
  { uid := str "1234abcd", iban := str "FI1", aliasName := str "a" }

/-- The specification's example account b. -/
def exAcctB : Resolver.Account :=
  { uid := str "5678efgh", iban := str "FI2", aliasName := str "b" }

/-- A connection holding the two example accounts. -/
def exConn : Resolver.Connection :=
  { accounts := [exAcctA, exAcctB], requiredPSUHeaders := [str "PSU-IP-Address"] }

/-- The example configuration. -/
def exCfg : Resolver.Config := { connections := [exConn] }

/-- The stale example entry (updated at the epoch). -/
def exStale : RateLimit.CacheEntry :=
  { accountUID := str "a", endpoint := str "ep", limit := 10,
    remaining := 9, retryAfter := 0, updatedAt := 0 }

/-- The fresh example entry (updated two days after the epoch). -/
def exFresh : RateLimit.CacheEntry :=
  { accountUID := str "b", endpoint := str "ep", limit := 10,
    remaining := 9, retryAfter := 0, updatedAt := 2 * RateLimit.dayNs }

/-- A two-entry map with one stale and one fresh entry. -/
def exEntries : RateLimit.EntryMap := [(str "a:ep", exStale), (str "b:ep", exFresh)]

/-! ## Theorems -/

open Resolver Auth RateLimit Api

section Helpers

/-- Looking up the key just overwritten yields the new value. -/
theorem lookupA_insertA_self {α : Type} (k : Str) (v : α) (l : List (Str × α)) :
    lookupA k (insertA k v l) = some v := by
  induction l with
  | nil => simp [insertA, lookupA]
  | cons p rest ih =>
    by_cases h : p.1 = k
    · simp [insertA, h, lookupA]
    · simp [insertA, h, lookupA, ih]

/-- Attempt counting distributes over trace concatenation. -/
theorem attemptCount_append (t₁ t₂ : List Event) :
    attemptCount (t₁ ++ t₂) = attemptCount t₁ + attemptCount t₂ := by
  simp [attemptCount, List.count_append]

/-- A sleep event is not an attempt. -/
theorem attemptCount_slept (d : Int) : attemptCount [.slept d] = 0 := by
  simp [attemptCount, List.count_singleton]

/-- A throttle-recording event is not an attempt. -/
theorem attemptCount_throttle (u e : Str) (r : Int) :
    attemptCount [.recordedThrottle u e r] = 0 := by
  simp [attemptCount, List.count_singleton]

/-- One attempt event counts once. -/
theorem attemptCount_attempt : attemptCount [.attempt] = 1 := by
  simp [attemptCount, List.count_singleton]

/-- Empty traces have no attempts. -/
theorem attemptCount_nil : attemptCount [] = 0 := by
  simp [attemptCount]

/-- Each leading attempt event counts once. -/
theorem attemptCount_cons_attempt (t : List Event) :
    attemptCount (Event.attempt :: t) = attemptCount t + 1 := by
  simp [attemptCount, List.count_cons]

/-- A leading sleep event does not count. -/
theorem attemptCount_cons_slept (d : Int) (t : List Event) :
    attemptCount (Event.slept d :: t) = attemptCount t := by
  simp [attemptCount, List.count_cons]

/-- A leading throttle-recording event does not count. -/
theorem attemptCount_cons_throttle (u e : Str) (r : Int) (t : List Event) :
    attemptCount (Event.recordedThrottle u e r :: t) = attemptCount t := by
  simp [attemptCount, List.count_cons]

end Helpers

/-- C4: the callback server validates a delivered callback in a fixed
order with distinct outcomes: a state different from the expected one is
a state-mismatch (CSRF) error and no code is accepted even when one is
present; with matching state, a non-empty remote `error` parameter is a
remote-authorization error; then an empty code is a no-code error; and
only a matching state with a non-empty code returns the result carrying
that code. -/
theorem callback_validation_order (r : CallbackResult) (expected : Str) :
    (r.state ≠ expected →
      validateCallback r expected = .err (.stateMismatch expected r.state)) ∧
    (r.state = expected → r.error ≠ [] →
      validateCallback r expected = .err (.remoteError r.error r.errorDescription)) ∧
    (r.state = expected → r.error = [] → r.code = [] →
      validateCallback r expected = .err .noCode) ∧
    (r.state = expected → r.error = [] → r.code ≠ [] →
      validateCallback r expected = .ok r) := by
  refine ⟨fun h1 => ?_, fun h1 h2 => ?_, fun h1 h2 h3 => ?_, fun h1 h2 h3 => ?_⟩
  · simp [validateCallback, h1]
  · simp [validateCallback, h1, h2]
  · simp [validateCallback, h1, h2, h3]
  · simp [validateCallback, h1, h2, h3]

/-- Witness for C4: a mismatching state is rejected as CSRF even though a
code is present. -/
theorem callback_validation_order_witness :
    validateCallback
        { code := str "X", state := str "T", error := [], errorDescription := [] }
        (str "S")
      = .err (.stateMismatch (str "S") (str "T")) :=
  (callback_validation_order
    { code := str "X", state := str "T", error := [], errorDescription := [] }
    (str "S")).1 (by decide)

/-- The three regimes of `GenerateJWT`'s TTL adjustment. -/
theorem clampTTL_cases (ttl : Int) :
    (ttl ≤ 0 → clampTTL ttl = 3600 * 1000000000) ∧
    (86400 * 1000000000 < ttl → clampTTL ttl = 86400 * 1000000000) ∧
    (0 < ttl → ttl ≤ 86400 * 1000000000 → clampTTL ttl = ttl) := by
  simp only [clampTTL, DefaultTTL, MaxTTL, nsPerSec]
  refine ⟨fun h => ?_, fun h => ?_, fun h1 h2 => ?_⟩ <;> split_ifs <;> omega

/-- C6 fails as stated: a requested TTL of one nanosecond lies strictly
between 0 and the 24-hour maximum, yet the issued claims are whole
Unix seconds, so expiry − issued-at is 0 rather than the requested
TTL. -/
theorem jwt_ttl_exact_counterexample :
    (0 : Int) < 1 ∧ (1 : Int) ≤ MaxTTL ∧
    ((expClaim 0 1 : Int) - (iatClaim 0 : Int)) * nsPerSec ≠ 1 := by decide

/-- C6 (amended): for requested TTL `t ≤ 0` the issued expiry minus
issued-at is the default 1 hour; for `t` above the 24-hour maximum it is
exactly 24 hours; for `t` in between it equals `t` whenever `t` is a
whole number of seconds (for fractional `t` the whole-second `iat`/`exp`
claims truncate it); and it never exceeds 24 hours. -/
theorem jwt_ttl_clamping (now : Nat) (ttl : Int) :
    (ttl ≤ 0 → (expClaim now ttl : Int) - (iatClaim now : Int) = 3600) ∧
    (MaxTTL < ttl → (expClaim now ttl : Int) - (iatClaim now : Int) = 86400) ∧
    (∀ secs : Nat, ttl = (secs : Int) * nsPerSec → 0 < ttl → ttl ≤ MaxTTL →
      ((expClaim now ttl : Int) - (iatClaim now : Int)) * nsPerSec = ttl) ∧
    ((expClaim now ttl : Int) - (iatClaim now : Int) ≤ 86400) := by
  have hb : 0 < clampTTL ttl ∧ clampTTL ttl ≤ 86400 * 1000000000 := by
    simp only [clampTTL, DefaultTTL, MaxTTL, nsPerSec]
    split_ifs <;> omega
  refine ⟨fun h => ?_, fun h => ?_, fun secs hs h0 hm => ?_, ?_⟩
  · have hcl := (clampTTL_cases ttl).1 h
    simp only [expClaim, iatClaim, hcl]
    omega
  · have hcl := (clampTTL_cases ttl).2.1 (by simpa [MaxTTL, nsPerSec] using h)
    simp only [expClaim, iatClaim, hcl]
    omega
  · have hcl := (clampTTL_cases ttl).2.2 h0 (by simpa [MaxTTL, nsPerSec] using hm)
    simp only [expClaim, iatClaim, hcl]
    simp only [nsPerSec] at hs ⊢
    rw [hs]
    omega
  · simp only [expClaim, iatClaim]
    omega

/-- Witness for C6 (amended): a requested TTL of exactly one hour in
whole seconds is issued verbatim. -/
theorem jwt_ttl_clamping_witness :
    ((expClaim 0 (3600 * nsPerSec) : Int) - (iatClaim 0 : Int)) * nsPerSec
      = 3600 * nsPerSec :=
  (jwt_ttl_clamping 0 (3600 * nsPerSec)).2.2.1 3600 (by decide) (by decide) (by decide)

/-- C10 is refuted by the code: for the non-empty owner "ab", shorter
than 8 characters, the low-quota warning branch of `Tracker.Update`
(rate-limit headers present with remaining = 1) and the throttled branch
of `Tracker.Check` (now before a recorded retryAfter) both take the
`accountUID[:8]` slice out of bounds — a Go panic, modelled as `none` /
`.fault`.  The spec calls both paths mere diagnostics, so the claim
captures the intent and the code is the slip. -/
theorem governor_short_owner_fault :
    trackerUpdate [] (str "ab") (str "balances")
        (some { retryAfter := [], rlRemaining := str "1", rlLimit := str "100" }) 0
      = none ∧
    trackerCheck (trackerRecordRetryAfter [] (str "ab") (str "balances") 100 50)
        (str "ab") (str "balances") 50 = .fault := by decide

/-- Recording on a connection with no row for today starts at count 1. -/
theorem recordDaily_lookup_fresh (daily : DailyMap) (name : Str) (n : Int)
    (today : Str) (now : Int)
    (h : lookupA name daily = none ∨
      ∃ u, lookupA name daily = some u ∧ u.date ≠ today) :
    lookupA name (recordDaily daily name n today now)
      = some { date := today, count := 1, maxPerDay := n, updatedAt := now } := by
  rcases h with h | ⟨u, hu, hd⟩
  · simp [recordDaily, h, lookupA_insertA_self]
  · simp [recordDaily, hu, hd, lookupA_insertA_self]

/-- Recording on a connection with a row for today increments its count. -/
theorem recordDaily_lookup_today (daily : DailyMap) (name : Str) (n : Int)
    (today : Str) (now : Int) (u : DailyUsage)
    (hu : lookupA name daily = some u) (hd : u.date = today) :
    lookupA name (recordDaily daily name n today now)
      = some { date := today, count := u.count + 1, maxPerDay := n, updatedAt := now } := by
  cases u
  subst hd
  simp [recordDaily, hu, lookupA_insertA_self]

/-- After `k ≥ 1` recordings starting from a state with no row for the
connection, today's row holds count `k`. -/
theorem recordDailyN_lookup (name : Str) (n : Int) (today : Str) (now : Int)
    (daily : DailyMap) (h : lookupA name daily = none) :
    ∀ k : Nat, 1 ≤ k →
      lookupA name (recordDailyN name n today now k daily)
        = some { date := today, count := (k : Int), maxPerDay := n, updatedAt := now } := by
  intro k
  induction k with
  | zero => omega
  | succ k ih =>
    intro _
    by_cases hk : 1 ≤ k
    · have hprev := ih hk
      have := recordDaily_lookup_today (recordDailyN name n today now k daily)
        name n today now _ hprev rfl
      simpa [recordDailyN] using this
    · have hk0 : k = 0 := by omega
      subst hk0
      have := recordDaily_lookup_fresh daily name n today now (Or.inl h)
      simpa [recordDailyN] using this

/-- C7: daily-quota policy.  With a non-positive limit `checkDaily`
always passes; a row dated another day passes (count treated as 0);
`recordDaily` resets a stale or missing row to count 1 and otherwise
increments today's count; at count exactly limit−1 the check passes with
a last-access warning; at the limit it errors; and with limit `n > 0`,
`n` recordings on one day starting from no usage make the check return
the daily-limit error. -/
theorem daily_quota_policy (daily : DailyMap) (name : Str) (n : Int)
    (today : Str) (now : Int) :
    (n ≤ 0 → checkDaily daily name n today = .pass) ∧
    (∀ u, lookupA name daily = some u → u.date ≠ today →
      checkDaily daily name n today = .pass) ∧
    (∀ u, lookupA name daily = some u → u.date ≠ today →
      lookupA name (recordDaily daily name n today now)
        = some { date := today, count := 1, maxPerDay := n, updatedAt := now }) ∧
    (lookupA name daily = none →
      lookupA name (recordDaily daily name n today now)
        = some { date := today, count := 1, maxPerDay := n, updatedAt := now }) ∧
    (∀ u, lookupA name daily = some u → u.date = today →
      lookupA name (recordDaily daily name n today now)
        = some { date := today, count := u.count + 1, maxPerDay := n, updatedAt := now }) ∧
    (0 < n → ∀ u, lookupA name daily = some u → u.date = today → u.count = n - 1 →
      checkDaily daily name n today = .passWarn) ∧
    (0 < n → ∀ u, lookupA name daily = some u → u.date = today → n ≤ u.count →
      checkDaily daily name n today = .limitError u.count n) ∧
    (∀ k : Nat, 0 < n → n = (k : Int) → lookupA name daily = none →
      checkDaily (recordDailyN name n today now k daily) name n today
        = .limitError n n) := by
  refine ⟨fun hn => ?_, fun u hu hd => ?_, fun u hu hd => ?_, fun h => ?_,
    fun u hu hd => ?_, fun hn u hu hd hc => ?_, fun hn u hu hd hc => ?_,
    fun k hn hk h => ?_⟩
  · simp [checkDaily, hn]
  · by_cases hn : n ≤ 0 <;> simp [checkDaily, hn, hu, hd]
  · exact recordDaily_lookup_fresh daily name n today now (Or.inr ⟨u, hu, hd⟩)
  · exact recordDaily_lookup_fresh daily name n today now (Or.inl h)
  · exact recordDaily_lookup_today daily name n today now u hu hd
  · have h0 : ¬ n ≤ 0 := by omega
    have h1 : ¬ n ≤ u.count := by omega
    have h2 : n - 1 ≤ u.count := by omega
    simp [checkDaily, hu, hd, h1, h2, h0]
  · have h0 : ¬ n ≤ 0 := by omega
    simp [checkDaily, hu, hd, hc, h0]
  · have h0 : ¬ n ≤ 0 := by omega
    have hk1 : 1 ≤ k := by omega
    have hl := recordDailyN_lookup name n today now daily h k hk1
    simp [checkDaily, hl, h0, ← hk]

/-- Witness for C7: with `maxPerDay = 5`, five recordings on one day make
the check fail with the daily-limit error. -/
theorem daily_quota_policy_witness :
    checkDaily (recordDailyN (str "conn") 5 (str "2026-10-11") 7 5 [])
        (str "conn") 5 (str "2026-10-11") = .limitError 5 5 :=
  (daily_quota_policy [] (str "conn") 5 (str "2026-10-11") 7).2.2.2.2.2.2.2
    5 (by decide) (by decide) (by decide)

/-- Folded equality against a non-empty string never holds for the empty
string. -/
theorem eqFold_nil_left (q : Str) (hq : q ≠ []) : eqFold [] q = false := by
  simp [eqFold, lowerStr]
  exact hq

/-- For a non-empty query, the source's `matchesAccount` coincides with
the specification's matching policy: the non-empty-IBAN guard only
matters for an empty query (an empty IBAN can never fold-equal a
non-empty query), and the clauses are the same up to order. -/
theorem matchesAccount_eq_spec (acct : Resolver.Account) (q : Str) (hq : q ≠ []) :
    matchesAccount acct q = specMatches acct q := by
  by_cases hi : acct.iban = []
  · cases hA : eqFold acct.aliasName q <;>
      cases hU : eqFold acct.uid q <;>
        cases hP : (decide (4 ≤ (lowerStr q).length)
            && (lowerStr q).isPrefixOf (lowerStr acct.uid)) <;>
          simp [matchesAccount, specMatches, hA, hU, hP, hi, eqFold_nil_left q hq]
  · cases hA : eqFold acct.aliasName q <;>
      cases hU : eqFold acct.uid q <;>
        cases hI : eqFold acct.iban q <;>
          cases hP : (decide (4 ≤ (lowerStr q).length)
              && (lowerStr q).isPrefixOf (lowerStr acct.uid)) <;>
            simp [matchesAccount, specMatches, hA, hU, hI, hP, hi]

/-- C5: the resolver trims the query and rejects an empty result before
scanning any account (for every configuration); for non-empty trimmed
queries an account matches exactly the specification's policy (alias,
UID or IBAN fold-equal, or a 4+-character fold-insensitive UID prefix);
the match list consists exactly of the matching accounts paired with
their connection and its required PSU headers; and the outcome is
NotFound on zero matches, the unique match on one, and Ambiguous naming
the match count on two or more. -/
theorem resolver_policy (cfg : Resolver.Config) (query : Str) :
    (trimSpace query = [] → Resolve cfg query = .err .emptyQuery) ∧
    (trimSpace query ≠ [] → ∀ acct, matchesAccount acct (trimSpace query)
      = specMatches acct (trimSpace query)) ∧
    (∀ r, r ∈ collectMatches cfg (trimSpace query) ↔
      (r.connection ∈ cfg.connections ∧ r.account ∈ r.connection.accounts ∧
        matchesAccount r.account (trimSpace query) = true ∧
        r.requiredPSUHeaders = r.connection.requiredPSUHeaders)) ∧
    (trimSpace query ≠ [] → collectMatches cfg (trimSpace query) = [] →
      Resolve cfg query = .err (.notFound (trimSpace query))) ∧
    (trimSpace query ≠ [] → ∀ m, collectMatches cfg (trimSpace query) = [m] →
      Resolve cfg query = .ok m) ∧
    (trimSpace query ≠ [] → 2 ≤ (collectMatches cfg (trimSpace query)).length →
      Resolve cfg query = .err
        (.ambiguous (trimSpace query) (collectMatches cfg (trimSpace query)).length)) := by
  refine ⟨fun hq => ?_, fun hq acct => matchesAccount_eq_spec acct _ hq,
    fun r => ?_, fun hq hc => ?_, fun hq m hc => ?_, fun hq hl => ?_⟩
  · simp [Resolve, hq]
  · constructor
    · intro hr
      simp only [collectMatches, List.mem_flatMap, List.mem_map, List.mem_filter] at hr
      obtain ⟨conn, hconn, a, ⟨ha, hm⟩, rfl⟩ := hr
      exact ⟨hconn, ha, hm, rfl⟩
    · rintro ⟨hconn, ha, hm, hh⟩
      simp only [collectMatches, List.mem_flatMap, List.mem_map, List.mem_filter]
      refine ⟨r.connection, hconn, r.account, ⟨ha, hm⟩, ?_⟩
      cases r
      simp_all
  · simp [Resolve, hq, hc]
  · simp [Resolve, hq, hc]
  · rcases hms : collectMatches cfg (trimSpace query) with _ | ⟨m1, _ | ⟨m2, rest⟩⟩
    · rw [hms] at hl; simp at hl
    · rw [hms] at hl; simp at hl
    · simp [Resolve, hq, hms]

/-- Witness for C5: the spec's example — query "A" resolves to the
account with alias "a" by case-insensitive alias match, carrying its
connection and that connection's required PSU headers. -/
theorem resolver_policy_witness :
    Resolve exCfg (str "A")
      = .ok { account := exAcctA, connection := exConn,
              requiredPSUHeaders := [str "PSU-IP-Address"] } :=
  (resolver_policy exCfg (str "A")).2.2.2.2.1 (by decide) _ (by decide)

/-- C8: after `Persist`, every quota entry whose `updatedAt` is older
than 24 hours at persist time is absent, every younger entry is present
with all its field values unchanged, every daily-usage row not dated
today is absent (and every row dated today is kept unchanged), and the
persisted store file is removed (no document written) exactly when no
entries and no daily rows remain. -/
theorem persist_pruning (entries : EntryMap) (daily : DailyMap) (now : Int)
    (today : Str) :
    (∀ p : Str × CacheEntry, p ∈ entries → p.2.updatedAt < now - dayNs →
      p ∉ (persist entries daily now today).1) ∧
    (∀ p : Str × CacheEntry, p ∈ entries → now - dayNs < p.2.updatedAt →
      p ∈ (persist entries daily now today).1) ∧
    (∀ p : Str × DailyUsage, p ∈ daily → p.2.date ≠ today →
      p ∉ (persist entries daily now today).2.1) ∧
    (∀ p : Str × DailyUsage, p ∈ daily → p.2.date = today →
      p ∈ (persist entries daily now today).2.1) ∧
    ((persist entries daily now today).2.2 = none ↔
      (persist entries daily now today).1 = [] ∧
        (persist entries daily now today).2.1 = []) := by
  refine ⟨fun p hp hold => ?_, fun p hp hnew => ?_, fun p hp hd => ?_,
    fun p hp hd => ?_, ?_⟩
  · simp only [persist, List.mem_filter]
    intro ⟨_, hkeep⟩
    simp at hkeep
    omega
  · simp only [persist, List.mem_filter]
    exact ⟨hp, by simp; omega⟩
  · simp only [persist, List.mem_filter]
    intro ⟨_, hkeep⟩
    simp at hkeep
    exact hd hkeep
  · simp only [persist, List.mem_filter]
    exact ⟨hp, by simp [hd]⟩
  · simp only [persist]
    split_ifs with h
    · exact iff_of_true rfl h
    · refine iff_of_false ?_ h
      intro hx
      simp at hx

/-- Witness for C8: persisting just after the fresh entry's update prunes
the stale entry and keeps the fresh one unchanged. -/
theorem persist_pruning_witness :
    (str "a:ep", exStale) ∉ (persist exEntries [] (2 * dayNs + 1) (str "2026-10-11")).1 ∧
    (str "b:ep", exFresh) ∈ (persist exEntries [] (2 * dayNs + 1) (str "2026-10-11")).1 :=
  ⟨(persist_pruning exEntries [] (2 * dayNs + 1) (str "2026-10-11")).1
      (str "a:ep", exStale) (by decide) (by decide),
   (persist_pruning exEntries [] (2 * dayNs + 1) (str "2026-10-11")).2.1
      (str "b:ep", exFresh) (by decide) (by decide)⟩

/-- C9: writing the tracker state with `Persist` and reloading the
resulting document through the load path reproduces exactly the pruned
entries and daily rows (a removed file loads as the empty state, which
is what remained); and a legacy bare-map document loads as exactly its
quota entries with no daily rows. -/
theorem persist_load_roundtrip (entries : EntryMap) (daily : DailyMap)
    (now : Int) (today : Str) :
    (loadFile (persist entries daily now today).2.2
      = ((persist entries daily now today).1, (persist entries daily now today).2.1)) ∧
    (∀ m : EntryMap, loadDoc (.bare m) = (m, [])) := by
  constructor
  · simp only [persist]
    split_ifs with h0 h1 h2 h3
    · rw [h0.1, h0.2]; rfl
    · exact absurd ⟨h1, h2⟩ h0
    · rw [h1]; rfl
    · rw [h3]; rfl
    · rfl
  · intro m
    simp [loadDoc, decodeWrapper, decodeBare]

/-- A run with no retry budget makes exactly one HTTP attempt: its trace
is the starting trace plus one attempt event. -/
theorem doRequestGo_zero_trace (pt : Str → Option Int) (path : Str)
    (script : List HTTPOutcome) (st : PipeState) :
    (doRequestGo pt path 0 script st).2.trace = st.trace ++ [Event.attempt] := by
  cases h : script.headD .transportFailure with
  | transportFailure => simp only [doRequestGo, attemptStep, h]
  | response status hdr body =>
    cases hu : trackerUpdate st.entries (extractAccountUID path) (extractEndpoint path)
        (some hdr) st.now with
    | none => simp only [doRequestGo, attemptStep, h, hu]
    | some pr =>
      obtain ⟨e', w⟩ := pr
      simp only [doRequestGo, attemptStep, h, hu, finishStatus]
      split_ifs <;> rfl

/-- The attempt count grows by at most budget + 1 over a run. -/
theorem doRequestGo_attempts_le (pt : Str → Option Int) (path : Str) :
    ∀ (b : Nat) (script : List HTTPOutcome) (st : PipeState),
      attemptCount (doRequestGo pt path b script st).2.trace
        ≤ attemptCount st.trace + (b + 1) := by
  intro b
  induction b with
  | zero =>
    intro script st
    rw [doRequestGo_zero_trace]
    simp [attemptCount_append, attemptCount_attempt]
  | succ b ih =>
    intro script st
    cases h : script.headD .transportFailure with
    | transportFailure =>
      simp only [doRequestGo, attemptStep, h]
      refine le_trans (ih _ _) ?_
      simp only [sleepSt, attemptCount_append, attemptCount_attempt,
        attemptCount_cons_attempt, attemptCount_cons_slept, attemptCount_nil,
        attemptCount_slept]
      omega
    | response status hdr body =>
      cases hu : trackerUpdate st.entries (extractAccountUID path) (extractEndpoint path)
          (some hdr) st.now with
      | none =>
        simp only [doRequestGo, attemptStep, h, hu]
        simp only [attemptCount_append, attemptCount_attempt]
        omega
      | some pr =>
        obtain ⟨e', w⟩ := pr
        simp only [doRequestGo, attemptStep, h, hu]
        by_cases h429 : status = 429
        · simp only [h429, if_pos]
          cases hra : ParseRetryAfterGo pt hdr
              ({ st with entries := e', trace := st.trace ++ [Event.attempt] } : PipeState).now with
          | some ra =>
            dsimp only
            split_ifs
            · refine le_trans (ih _ _) ?_
              simp only [sleepSt, attemptCount_append, attemptCount_attempt,
                attemptCount_slept, attemptCount_throttle, attemptCount_cons_attempt,
                attemptCount_cons_slept, attemptCount_cons_throttle, attemptCount_nil]
              omega
            · refine le_trans (ih _ _) ?_
              simp only [sleepSt, attemptCount_append, attemptCount_attempt,
                attemptCount_slept, attemptCount_throttle, attemptCount_cons_attempt,
                attemptCount_cons_slept, attemptCount_cons_throttle, attemptCount_nil]
              omega
          | none =>
            refine le_trans (ih _ _) ?_
            simp only [sleepSt, attemptCount_append, attemptCount_attempt,
              attemptCount_slept, attemptCount_cons_attempt, attemptCount_cons_slept,
              attemptCount_nil]
            omega
        · rw [if_neg h429]
          by_cases h5 : (500 : Int) ≤ status
          · rw [if_pos h5]
            refine le_trans (ih _ _) ?_
            simp only [sleepSt, attemptCount_append, attemptCount_attempt,
              attemptCount_slept, attemptCount_cons_attempt, attemptCount_cons_slept,
              attemptCount_nil]
            omega
          · rw [if_neg h5]
            simp only [finishStatus]
            split_ifs <;>
              · simp only [attemptCount_append, attemptCount_attempt]
                omega

/-- When `updateFaults` is false, `Tracker.Update` completes (no panic). -/
theorem trackerUpdate_ne_none (entries : EntryMap) (uid ep : Str) (h : Headers)
    (now : Int) (hf : updateFaults uid h = false) :
    ∃ pr, trackerUpdate entries uid ep (some h) now = some pr := by
  by_cases h0 : uid = []
  · exact ⟨(entries, false), by simp [trackerUpdate, h0]⟩
  · cases hp : parseRateLimitHeaders h with
    | none => exact ⟨(entries, false), by simp [trackerUpdate, h0, hp]⟩
    | some rl =>
      obtain ⟨r, l⟩ := rl
      by_cases hr : r ≤ 1
      · have hlen : (8 : Nat) ≤ uid.length := by
          by_contra hlt
          simp [updateFaults, h0, hp, hr] at hf
          omega
        refine ⟨(insertA (key uid ep)
          { accountUID := uid, endpoint := ep, limit := l, remaining := r,
            retryAfter := 0, updatedAt := now } entries, true), ?_⟩
        simp [trackerUpdate, h0, hp, hr, hlen]
      · refine ⟨(insertA (key uid ep)
          { accountUID := uid, endpoint := ep, limit := l, remaining := r,
            retryAfter := 0, updatedAt := now } entries, false), ?_⟩
        simp [trackerUpdate, h0, hp, hr]

/-- C3's "otherwise it overwrites" fails for an empty owner: a successful
pipeline call on `/aspsps?country=FI` carrying both rate-limit headers
leaves the Governor's entries untouched, because `Update` also no-ops
when the path-derived owner is empty (no `/accounts/` segment). -/
theorem record_response_empty_owner_counterexample :
    (doRequest (fun _ => none) (str "/aspsps?country=FI")
        [.response 200 ⟨[], str "97", str "100"⟩ (str "ok")]
        ⟨[], 0, []⟩).1 = .ok (str "ok") ∧
    (doRequest (fun _ => none) (str "/aspsps?country=FI")
        [.response 200 ⟨[], str "97", str "100"⟩ (str "ok")]
        ⟨[], 0, []⟩).2.entries = [] ∧
    parseRateLimitHeaders ⟨[], str "97", str "100"⟩ ≠ none ∧
    extractAccountUID (str "/aspsps?country=FI") = [] := by decide

/-- C3 (amended): every pipeline call that succeeds has invoked
`Tracker.Update` with owner = the UID segment following `/accounts/`
(empty if absent) and endpoint = the final path segment before the query
string — the run returns the body after exactly one attempt with the
entries `Update` produced; and `Update` itself is a no-op when the
rate-limit headers are absent **or the owner is empty**, while for a
non-empty owner with headers present (and the owner 8 bytes long
whenever the warning fires) it overwrites the (owner, endpoint) entry
with the fresh header values and current timestamp, warning exactly when
remaining ≤ 1. -/
theorem record_response_on_success (pt : Str → Option Int) (path : Str)
    (hdr : Headers) (body : Str) (rest : List HTTPOutcome) (st : PipeState)
    (status : Int) (entries : EntryMap) (uid ep : Str)
    (now remaining limit : Int) :
    (status < 400 → updateFaults (extractAccountUID path) hdr = false →
      doRequest pt path (.response status hdr body :: rest) st
        = (.ok body,
          { st with
            entries := ((trackerUpdate st.entries (extractAccountUID path)
                (extractEndpoint path) (some hdr) st.now).getD (st.entries, false)).1,
            trace := st.trace ++ [Event.attempt] })) ∧
    (parseRateLimitHeaders hdr = none →
      trackerUpdate entries uid ep (some hdr) now = some (entries, false)) ∧
    (uid = [] →
      trackerUpdate entries uid ep (some hdr) now = some (entries, false)) ∧
    (parseRateLimitHeaders hdr = some (remaining, limit) → uid ≠ [] →
      (2 ≤ remaining ∨ 8 ≤ uid.length) →
      trackerUpdate entries uid ep (some hdr) now =
        some (insertA (key uid ep)
          { accountUID := uid, endpoint := ep, limit := limit,
            remaining := remaining, retryAfter := 0, updatedAt := now } entries,
          decide (remaining ≤ 1)) ∧
      lookupA (key uid ep)
          (insertA (key uid ep)
            { accountUID := uid, endpoint := ep, limit := limit,
              remaining := remaining, retryAfter := 0, updatedAt := now } entries)
        = some { accountUID := uid, endpoint := ep, limit := limit,
                 remaining := remaining, retryAfter := 0, updatedAt := now }) := by
  refine ⟨fun hs hfault => ?_, fun hp => ?_, fun h0 => ?_, fun hp h0 hok => ?_⟩
  · obtain ⟨pr, hpr⟩ := trackerUpdate_ne_none st.entries (extractAccountUID path)
      (extractEndpoint path) hdr st.now hfault
    obtain ⟨e', w⟩ := pr
    have h429 : ¬ (status = (429 : Int)) := by omega
    have h5 : ¬ ((500 : Int) ≤ status) := by omega
    have h4 : ¬ ((400 : Int) ≤ status) := by omega
    simp only [doRequest, doRequestGo, attemptStep, List.headD_cons, hpr,
      Option.getD_some, finishStatus, if_neg h429, if_neg h5, if_neg h4]
  · by_cases h0 : uid = [] <;> simp [trackerUpdate, h0, hp]
  · simp [trackerUpdate, h0]
  · rcases hok with h2 | h8
    · have hr : ¬ (remaining ≤ 1) := by omega
      constructor
      · simp [trackerUpdate, h0, hp, hr]
      · exact lookupA_insertA_self _ _ _
    · by_cases hr : remaining ≤ 1
      · constructor
        · simp [trackerUpdate, h0, hp, hr, h8]
        · exact lookupA_insertA_self _ _ _
      · constructor
        · simp [trackerUpdate, h0, hp, hr]
        · exact lookupA_insertA_self _ _ _

/-- Witness for C3 (amended): a successful call on an account-scoped
path stores the fresh quota entry for (owner, endpoint) extracted from
the path. -/
theorem record_response_on_success_witness :
    doRequest (fun _ => none) (str "/accounts/abcdefgh/balances")
        [.response 200 ⟨[], str "97", str "100"⟩ (str "ok")] ⟨[], 5, []⟩
      = (.ok (str "ok"),
        { entries := ((trackerUpdate [] (extractAccountUID (str "/accounts/abcdefgh/balances"))
            (extractEndpoint (str "/accounts/abcdefgh/balances"))
            (some ⟨[], str "97", str "100"⟩) 5).getD ([], false)).1,
          now := 5, trace := [Event.attempt] }) :=
  (record_response_on_success (fun _ => none) (str "/accounts/abcdefgh/balances")
    ⟨[], str "97", str "100"⟩ (str "ok") [] ⟨[], 5, []⟩ 200 [] [] [] 0 0 0).1
    (by decide) (by decide)

/-- C1: when the first HTTP attempt of a pipeline call returns 429 (and
the quota tracking on that response does not fault), the call proceeds
exactly as specified: if the Retry-After header resolves to an instant
whose wait is strictly between 0 and 5 minutes, the pipeline records
the throttle into the Governor first, sleeps exactly that wait and
retries exactly once with retrying disabled; otherwise it sleeps the
fixed 2-second default backoff and retries exactly once (the throttle
still recorded whenever the header parsed); the whole call makes
exactly two HTTP attempts; and when the retried attempt also returns
429, that response surfaces as the status-429 API error with no third
attempt. -/
theorem pipeline_429_policy (pt : Str → Option Int) (path : Str)
    (h1 : Headers) (b1 : Str) (rest : List HTTPOutcome) (st : PipeState)
    (ra : Int) (h2 : Headers) (b2 : Str) (rest2 : List HTTPOutcome)
    (hsafe : updateFaults (extractAccountUID path) h1 = false) :
    (ParseRetryAfterGo pt h1 st.now = some ra →
      0 < ra - st.now → ra - st.now < min5 →
      doRequest pt path (.response 429 h1 b1 :: rest) st
        = doRequestGo pt path 0 rest
            (sleepSt
              { st with
                entries := trackerRecordRetryAfter
                  ((trackerUpdate st.entries (extractAccountUID path)
                      (extractEndpoint path) (some h1) st.now).getD (st.entries, false)).1
                  (extractAccountUID path) (extractEndpoint path) ra st.now,
                trace := st.trace ++ [Event.attempt,
                  Event.recordedThrottle (extractAccountUID path) (extractEndpoint path) ra] }
              (ra - st.now))) ∧
    (ParseRetryAfterGo pt h1 st.now = none →
      doRequest pt path (.response 429 h1 b1 :: rest) st
        = doRequestGo pt path 0 rest
            (sleepSt
              { st with
                entries := ((trackerUpdate st.entries (extractAccountUID path)
                    (extractEndpoint path) (some h1) st.now).getD (st.entries, false)).1,
                trace := st.trace ++ [Event.attempt] }
              sec2)) ∧
    (ParseRetryAfterGo pt h1 st.now = some ra →
      ¬ (0 < ra - st.now ∧ ra - st.now < min5) →
      doRequest pt path (.response 429 h1 b1 :: rest) st
        = doRequestGo pt path 0 rest
            (sleepSt
              { st with
                entries := trackerRecordRetryAfter
                  ((trackerUpdate st.entries (extractAccountUID path)
                      (extractEndpoint path) (some h1) st.now).getD (st.entries, false)).1
                  (extractAccountUID path) (extractEndpoint path) ra st.now,
                trace := st.trace ++ [Event.attempt,
                  Event.recordedThrottle (extractAccountUID path) (extractEndpoint path) ra] }
              sec2)) ∧
    (attemptCount (doRequest pt path (.response 429 h1 b1 :: rest) st).2.trace
      = attemptCount st.trace + 2) ∧
    (rest = .response 429 h2 b2 :: rest2 →
      updateFaults (extractAccountUID path) h2 = false →
      (doRequest pt path (.response 429 h1 b1 :: rest) st).1 = .apiError 429) := by
  obtain ⟨pr, hpr⟩ := trackerUpdate_ne_none st.entries (extractAccountUID path)
    (extractEndpoint path) h1 st.now hsafe
  obtain ⟨e', w⟩ := pr
  have hgd : ((trackerUpdate st.entries (extractAccountUID path) (extractEndpoint path)
      (some h1) st.now).getD (st.entries, false)).1 = e' := by simp [hpr]
  have hA : ∀ ra' : Int, ParseRetryAfterGo pt h1 st.now = some ra' →
      (0 < ra' - st.now ∧ ra' - st.now < min5) →
      doRequest pt path (.response 429 h1 b1 :: rest) st
        = doRequestGo pt path 0 rest
            (sleepSt
              { st with
                entries := trackerRecordRetryAfter e' (extractAccountUID path)
                  (extractEndpoint path) ra' st.now,
                trace := st.trace ++ [Event.attempt,
                  Event.recordedThrottle (extractAccountUID path) (extractEndpoint path) ra'] }
              (ra' - st.now)) := by
    intro ra' hp hw
    simp only [doRequest, doRequestGo, attemptStep, List.headD_cons, List.tail_cons,
      hpr, hp, if_true]
    rw [if_pos hw]
    simp [sleepSt, List.append_assoc]
  have hB : ParseRetryAfterGo pt h1 st.now = none →
      doRequest pt path (.response 429 h1 b1 :: rest) st
        = doRequestGo pt path 0 rest
            (sleepSt { st with entries := e', trace := st.trace ++ [Event.attempt] }
              sec2) := by
    intro hp
    simp only [doRequest, doRequestGo, attemptStep, List.headD_cons, List.tail_cons,
      hpr, hp, if_true]
  have hC : ∀ ra' : Int, ParseRetryAfterGo pt h1 st.now = some ra' →
      ¬ (0 < ra' - st.now ∧ ra' - st.now < min5) →
      doRequest pt path (.response 429 h1 b1 :: rest) st
        = doRequestGo pt path 0 rest
            (sleepSt
              { st with
                entries := trackerRecordRetryAfter e' (extractAccountUID path)
                  (extractEndpoint path) ra' st.now,
                trace := st.trace ++ [Event.attempt,
                  Event.recordedThrottle (extractAccountUID path) (extractEndpoint path) ra'] }
              sec2) := by
    intro ra' hp hw
    simp only [doRequest, doRequestGo, attemptStep, List.headD_cons, List.tail_cons,
      hpr, hp, if_true]
    rw [if_neg hw]
    simp [sleepSt, List.append_assoc]
  have h2nd : ∀ st' : PipeState, updateFaults (extractAccountUID path) h2 = false →
      (doRequestGo pt path 0 (.response 429 h2 b2 :: rest2) st').1 = .apiError 429 := by
    intro st' hs2
    obtain ⟨pr2, hpr2⟩ := trackerUpdate_ne_none st'.entries (extractAccountUID path)
      (extractEndpoint path) h2 st'.now hs2
    obtain ⟨e2, w2⟩ := pr2
    simp only [doRequestGo, attemptStep, List.headD_cons, hpr2, finishStatus]
    split_ifs with hx hy
    · rcases hy with ⟨hy1, _⟩
      rcases hy1 with hy1 | hy1 <;> norm_num at hy1
    · rfl
    · exact absurd (by norm_num : (400 : Int) ≤ 429) hx
  refine ⟨fun hp hw1 hw2 => ?_, fun hp => ?_, fun hp hw => ?_, ?_, fun hrest hs2 => ?_⟩
  · rw [hgd]
    exact hA ra hp ⟨hw1, hw2⟩
  · rw [hgd]
    exact hB hp
  · rw [hgd]
    exact hC ra hp hw
  · cases hp : ParseRetryAfterGo pt h1 st.now with
    | none =>
      rw [hB hp, doRequestGo_zero_trace]
      simp only [sleepSt, attemptCount_append, attemptCount_attempt,
        attemptCount_cons_attempt, attemptCount_cons_slept, attemptCount_cons_throttle,
        attemptCount_nil, attemptCount_slept]
    | some ra' =>
      by_cases hw : (0 : Int) < ra' - st.now ∧ ra' - st.now < min5
      · rw [hA ra' hp hw, doRequestGo_zero_trace]
        simp only [sleepSt, attemptCount_append, attemptCount_attempt,
          attemptCount_cons_attempt, attemptCount_cons_slept, attemptCount_cons_throttle,
          attemptCount_nil, attemptCount_slept]
      · rw [hC ra' hp hw, doRequestGo_zero_trace]
        simp only [sleepSt, attemptCount_append, attemptCount_attempt,
          attemptCount_cons_attempt, attemptCount_cons_slept, attemptCount_cons_throttle,
          attemptCount_nil, attemptCount_slept]
  · subst hrest
    cases hp : ParseRetryAfterGo pt h1 st.now with
    | none =>
      rw [hB hp]
      exact h2nd _ hs2
    | some ra' =>
      by_cases hw : (0 : Int) < ra' - st.now ∧ ra' - st.now < min5
      · rw [hA ra' hp hw]
        exact h2nd _ hs2
      · rw [hC ra' hp hw]
        exact h2nd _ hs2

/-- Witness for C1: a 429 with `Retry-After: 2` followed by a 200 is
retried exactly once after recording the throttle and sleeping the
resolved 2-second wait. -/
theorem pipeline_429_policy_witness :
    doRequest (fun _ => none) (str "/accounts/abcdefgh/balances")
        [.response 429 ⟨str "2", [], []⟩ [], .response 200 ⟨[], [], []⟩ (str "yay")]
        ⟨[], 0, []⟩
      = doRequestGo (fun _ => none) (str "/accounts/abcdefgh/balances") 0
          [.response 200 ⟨[], [], []⟩ (str "yay")]
          (sleepSt
            { entries := trackerRecordRetryAfter
                ((trackerUpdate [] (extractAccountUID (str "/accounts/abcdefgh/balances"))
                    (extractEndpoint (str "/accounts/abcdefgh/balances"))
                    (some ⟨str "2", [], []⟩) 0).getD ([], false)).1
                (extractAccountUID (str "/accounts/abcdefgh/balances"))
                (extractEndpoint (str "/accounts/abcdefgh/balances")) 2000000000 0,
              now := 0,
              trace := [Event.attempt,
                Event.recordedThrottle (extractAccountUID (str "/accounts/abcdefgh/balances"))
                  (extractEndpoint (str "/accounts/abcdefgh/balances")) 2000000000] }
            (2000000000 - 0)) :=
  (pipeline_429_policy (fun _ => none) (str "/accounts/abcdefgh/balances")
    ⟨str "2", [], []⟩ [] [.response 200 ⟨[], [], []⟩ (str "yay")] ⟨[], 0, []⟩
    2000000000 ⟨[], [], []⟩ [] [] (by decide)).1
    (by decide) (by decide) (by decide)

/-- C2: over every script of outcomes — transport failures, 429s, 5xx,
anything, in any combination — one logical pipeline call issues at most
two HTTP attempts: the entry point has a retry budget of one and every
retried attempt runs with retrying disabled. -/
theorem retry_budget_bound (pt : Str → Option Int) (path : Str)
    (script : List HTTPOutcome) (st : PipeState) :
    attemptCount (doRequest pt path script st).2.trace ≤ attemptCount st.trace + 2 := by
  have h := doRequestGo_attempts_le pt path 1 script st
  simpa [doRequest] using h

end EBCli
